import Mathlib

/-
Verification of the point-representation layer of the kdtree repository.

The embedded code is the PointRepresentation / DefaultPointRepresentation
class hierarchy (src/unnamed/part_000).  Machine floats are modelled by an
inductive type F: a finite value carries an exact rational, and the three
non-finite shapes (positive infinity, negative infinity, NaN) are explicit
constructors.  Multiplication follows the IEEE-754 case analysis on these
shapes; the finite-times-finite case is exact, which is adequate because no
claim below depends on rounding.

The spatial-index wrapper (KdTreeFLANN) is not among the repository sources
available here; it is modelled from the specification where needed, and the
corresponding definitions say so in their doc comments.
-/

namespace KdtreeSpec

/-- Model of a machine float: a finite exact value or one of the three
non-finite shapes. -/
inductive F where
  | finite (v : ℚ)
  | pinf
  | ninf
  | nan
deriving DecidableEq, Repr

/-- Model of std::isfinite: true exactly on finite values. -/
def F.isfinite : F → Bool
  | F.finite _ => true
  | _ => false

/-- IEEE-754 multiplication on the float model; exact in the
finite-times-finite case. -/
def F.mul : F → F → F
  | F.nan, _ => F.nan
  | _, F.nan => F.nan
  | F.finite a, F.finite b => F.finite (a * b)
  | F.pinf, F.finite b => if b = 0 then F.nan else if 0 < b then F.pinf else F.ninf
  | F.ninf, F.finite b => if b = 0 then F.nan else if 0 < b then F.ninf else F.pinf
  | F.finite a, F.pinf => if a = 0 then F.nan else if 0 < a then F.pinf else F.ninf
  | F.finite a, F.ninf => if a = 0 then F.nan else if 0 < a then F.ninf else F.pinf
  | F.pinf, F.pinf => F.pinf
  | F.pinf, F.ninf => F.ninf
  | F.ninf, F.pinf => F.ninf
  | F.ninf, F.ninf => F.pinf

/-- Multiplying any float by the literal 1.0 returns it unchanged (in this
model, which abstracts NaN payloads). -/
theorem F.mul_one_right : ∀ x : F, F.mul x (F.finite 1) = x := by
  intro x
  cases x <;> simp [F.mul]

/--
State of a PointRepresentation<PointT> object together with its virtual
method table.

Fields mirror the C++ members: nr_dimensions_ (an int that every code path
keeps non-negative, hence Nat), alpha_ (std::vector<float>), trivial_
(bool).  memFloats models `reinterpret_cast<const float*>(&p)[i]`, the raw
reinterpretation of the point memory used by the trivial fast path;
copyToFloatArray models the pure virtual copyToFloatArray override: the
float it writes at out[i].
-/
structure PointRep (P : Type) where
  nr_dimensions : Nat
  alpha : List F
  trivial : Bool
  memFloats : P → Nat → F
  copyToFloatArray : P → Nat → F

/-- PointRepresentation::isTrivial: `trivial_ && alpha_.empty()`. -/
def isTrivial {P : Type} (r : PointRep P) : Bool :=
  r.trivial && r.alpha.isEmpty

/-- PointRepresentation::getNumberOfDimensions. -/
def getNumberOfDimensions {P : Type} (r : PointRep P) : Nat :=
  r.nr_dimensions

/-- The fast branch of PointRepresentation::isValid taken when trivial_ is
set: read the point memory directly as floats and require every one of the
first nr_dimensions_ to be finite (the loop with early break computes
exactly this conjunction). -/
def isValidFastPath {P : Type} (r : PointRep P) (p : P) : Bool :=
  (List.range r.nr_dimensions).all (fun i => (r.memFloats p i).isfinite)

/-- The slow branch of PointRepresentation::isValid: copyToFloatArray into
scratch storage, then require every one of the first nr_dimensions_
converted floats to be finite. -/
def isValidFullConversion {P : Type} (r : PointRep P) (p : P) : Bool :=
  (List.range r.nr_dimensions).all (fun i => (r.copyToFloatArray p i).isfinite)

/-- PointRepresentation::isValid: branch on trivial_, then scan the first
nr_dimensions_ floats of the chosen source for a non-finite value. -/
def isValid {P : Type} (r : PointRep P) (p : P) : Bool :=
  if r.trivial then
    (List.range r.nr_dimensions).all (fun i => (r.memFloats p i).isfinite)
  else
    (List.range r.nr_dimensions).all (fun i => (r.copyToFloatArray p i).isfinite)

/--
PointRepresentation::vectorize: copyToFloatArray into a temporary, then
either copy the temporary to out unweighted (alpha_ empty) or write
`temp[i] * alpha_[i]` for each i.  The result lists the nr_dimensions_
floats written to out, in order.  The C++ reads `alpha_[i]` without a bound
check; the model supplies NaN where the C++ would read out of bounds, a
case no code path reaches because setRescaleValues always sizes alpha_ to
nr_dimensions_.
-/
def vectorize {P : Type} (r : PointRep P) (p : P) : List F :=
  if r.alpha.isEmpty then
    (List.range r.nr_dimensions).map (fun i => r.copyToFloatArray p i)
  else
    (List.range r.nr_dimensions).map
      (fun i => F.mul (r.copyToFloatArray p i) (r.alpha.getD i F.nan))

/-- PointRepresentation::setRescaleValues: `alpha_.resize(nr_dimensions_)`
followed by copying the first nr_dimensions_ entries of the given array,
so alpha_ afterwards is exactly the first nr_dimensions_ entries of w. -/
def setRescaleValues {P : Type} (r : PointRep P) (w : Nat → F) : PointRep P :=
  { r with alpha := (List.range r.nr_dimensions).map w }

/-- The dimension count computed by the DefaultPointRepresentation
constructor: `sizeof(PointDefault) / sizeof(float)` (integer division),
then clamped to 3. -/
def defaultNrDimensions (szPoint szFloat : Nat) : Nat :=
  let n := szPoint / szFloat
  if n > 3 then 3 else n

/-- The DefaultPointRepresentation<PointDefault> constructor: dimension
count from the byte sizes, no rescale values, trivial_ set; its
copyToFloatArray override reinterprets the point memory as floats and
copies, so it coincides with the raw memory read. -/
def DefaultPointRepresentation {P : Type} (szPoint szFloat : Nat)
    (mem : P → Nat → F) : PointRep P :=
  { nr_dimensions := defaultNrDimensions szPoint szFloat
    alpha := []
    trivial := true
    memFloats := mem
    copyToFloatArray := mem }

/--
Modelled from the spec: the KdTreeFLANN spatial-index wrapper
(kdtree/kdtree_flann.h) is not among the available repository sources, so
its error taxonomy is taken from the specification.  Only the error
relevant to the claims is needed.
-/
inductive IndexError where
  | invalidInputError
deriving DecidableEq, Repr

/--
Modelled from the spec: the Built state of the spatial index — the flat
dataset of feature vectors (one per cloud point, in insertion order) and
the dimensionality handed to the external engine.
-/
structure BuiltIndex where
  dataset : List (List ℚ)
  dims : Nat
deriving DecidableEq, Repr

/--
Modelled from the spec: `setInputCloud(cloud, representation)` of the
spatial index, whose source (kdtree/kdtree_flann.h) is not available.
Per the specification it fails with InvalidInputError if the cloud is
empty or the bound representation has nr_dimensions equal to 0, and
otherwise enters the Built state holding the vectorized dataset.  `vec`
stands for the bound representation's vectorize; distances are exact
rationals since the engine is an external collaborator specified only up
to squared Euclidean distance.
-/
def setInputCloud {P : Type} (cloud : List P) (vec : P → List ℚ) (dims : Nat) :
    Except IndexError BuiltIndex :=
  if cloud.length = 0 ∨ dims = 0 then Except.error IndexError.invalidInputError
  else Except.ok { dataset := cloud.map vec, dims := dims }

/-- Squared Euclidean distance between two feature vectors. -/
def sqDist (q p : List ℚ) : ℚ :=
  (List.zipWith (fun a b => (a - b) * (a - b)) q p).sum

/-- The ordering on (index, squaredDistance) result pairs specified for
nearestKSearch: ascending squared distance, ties broken by ascending point
index. -/
def resultOrder (a b : Nat × ℚ) : Prop :=
  a.2 < b.2 ∨ (a.2 = b.2 ∧ a.1 ≤ b.1)

instance : DecidableRel resultOrder := by
  intro a b
  unfold resultOrder
  infer_instance

instance : IsTotal (Nat × ℚ) resultOrder := by
  constructor
  intro a b
  rcases lt_trichotomy a.2 b.2 with h | h | h
  · exact Or.inl (Or.inl h)
  · rcases Nat.le_total a.1 b.1 with h1 | h1
    · exact Or.inl (Or.inr ⟨h, h1⟩)
    · exact Or.inr (Or.inr ⟨h.symm, h1⟩)
  · exact Or.inr (Or.inl h)

instance : IsTrans (Nat × ℚ) resultOrder := by
  constructor
  intro a b c hab hbc
  rcases hab with h1 | ⟨e1, i1⟩
  · rcases hbc with h2 | ⟨e2, _⟩
    · exact Or.inl (h1.trans h2)
    · exact Or.inl (e2 ▸ h1)
  · rcases hbc with h2 | ⟨e2, i2⟩
    · exact Or.inl (e1 ▸ h2)
    · exact Or.inr ⟨e1.trans e2, i1.trans i2⟩

/--
Modelled from the spec: `nearestKSearch(q, k)` of the spatial index, whose
source (kdtree/kdtree_flann.h) is not available.  Per the specification it
ranks every dataset point by squared Euclidean distance to the query
(ties broken by ascending point index) and writes the first
min(k, datasetSize) pairs, returning the count written; the returned list
models the co-indexed output sequences, so its length is that count.
-/
def nearestKSearch (cloud : List (List ℚ)) (q : List ℚ) (k : Nat) :
    List (Nat × ℚ) :=
  (List.insertionSort resultOrder
    ((List.range cloud.length).map (fun i => (i, sqDist q (cloud.getD i []))))).take k

/-- Helper: List.all is determined by the pointwise values of the predicate
on members. -/
theorem list_all_congr {α : Type} {p q : α → Bool} :
    ∀ l : List α, (∀ a ∈ l, p a = q a) → l.all p = l.all q := by
  intro l
  induction l with
  | nil => intro _; rfl
  | cons a l ih =>
    intro h
    simp only [List.all_cons]
    rw [h a (List.mem_cons_self a l), ih (fun b hb => h b (List.mem_cons_of_mem a hb))]

/-- Reading a point stored as a list of floats as raw float memory: entry i
of the list, NaN past the end. -/
def listMem : List F → Nat → F := fun p i => p.getD i F.nan

/-- Concrete point with a NaN in the first coordinate field. -/
def pEx : List F := [F.nan, F.finite 1]

/-- Concrete two-dimensional trivial representation whose conversion is the
raw memory read, as DefaultPointRepresentation produces for an
eight-byte all-float point type. -/
def repEx2 : PointRep (List F) :=
  { nr_dimensions := 2
    alpha := []
    trivial := true
    memFloats := listMem
    copyToFloatArray := listMem }

/-- Concrete zero-dimensional trivial representation: the shape
DefaultPointRepresentation produces for a point type smaller than a
float. -/
def zeroDimRep : PointRep (List F) :=
  { nr_dimensions := 0
    alpha := []
    trivial := true
    memFloats := listMem
    copyToFloatArray := listMem }

/-- Concrete weight array with all entries 1.0. -/
def onesWeights : Nat → F := fun _ => F.finite 1

/-- Concrete weight array with distinct entries. -/
def wEx : Nat → F := fun i => F.finite ((i : ℚ) + 2)

/-- Helper shared by the isTrivial theorems: after setRescaleValues on a
representation with at least one dimension, alpha is nonempty, so
isTrivial returns false whatever the trivial flag holds. -/
theorem isTrivial_setRescaleValues_of_pos {P : Type} (r : PointRep P)
    (w : Nat → F) (h : 0 < r.nr_dimensions) :
    isTrivial (setRescaleValues r w) = false := by
  have hne : r.nr_dimensions ≠ 0 := Nat.pos_iff_ne_zero.mp h
  unfold isTrivial setRescaleValues
  simp [List.isEmpty_iff, List.range_eq_nil, hne]

/-- C1: for a representation whose trivial flag is set, which is actually
trivial at the given point (copyToFloatArray agrees with the raw memory
read on the first nr_dimensions floats, the documented meaning of the
flag), and which has no rescale weights configured, isValid computed via
the fast memory-read path and isValid computed via full conversion return
the same boolean for every input point — including points whose
coordinate fields hold NaN or infinity — and isValid itself takes the
fast path. -/
theorem isValid_fastPath_eq_fullConversion {P : Type} (r : PointRep P) (p : P)
    (htriv : r.trivial = true) (_halpha : r.alpha = [])
    (hsem : ∀ i, i < r.nr_dimensions → r.copyToFloatArray p i = r.memFloats p i) :
    isValidFastPath r p = isValidFullConversion r p ∧
      isValid r p = isValidFastPath r p := by
  constructor
  · unfold isValidFastPath isValidFullConversion
    refine (list_all_congr _ ?_).symm
    intro i hi
    rw [hsem i (List.mem_range.mp hi)]
  · unfold isValid isValidFastPath
    rw [htriv]
    simp

/-- Witness for C1 at a concrete two-dimensional trivial representation and
a point holding a NaN. -/
theorem isValid_fastPath_eq_fullConversion_witness :
    isValidFastPath repEx2 pEx = isValidFullConversion repEx2 pEx ∧
      isValid repEx2 pEx = isValidFastPath repEx2 pEx :=
  isValid_fastPath_eq_fullConversion repEx2 pEx rfl rfl (fun _ _ => rfl)

/-- C2 counterexample: the zero-dimensional trivial representation (the
shape DefaultPointRepresentation yields for a point type smaller than a
float) still reports isTrivial = true after setRescaleValues has been
called, refuting the claim that isTrivial returns false for any
representation on which setRescaleValues has been called. -/
theorem isTrivial_true_after_setRescaleValues_zeroDim :
    zeroDimRep.trivial = true ∧
      isTrivial (setRescaleValues zeroDimRep onesWeights) = true :=
  ⟨rfl, rfl⟩

/-- C2 (amended): isTrivial returns true iff the trivial flag is set and no
rescale weights are stored; and after setRescaleValues on a
representation with at least one dimension, isTrivial returns false
regardless of the trivial flag.  (When nr_dimensions is zero,
setRescaleValues stores an empty alpha and isTrivial is unchanged.) -/
theorem isTrivial_iff_flag_and_no_rescale {P : Type} (r : PointRep P)
    (w : Nat → F) :
    (isTrivial r = true ↔ r.trivial = true ∧ r.alpha.isEmpty = true) ∧
      (0 < r.nr_dimensions → isTrivial (setRescaleValues r w) = false) := by
  constructor
  · unfold isTrivial
    exact iff_of_eq (Bool.and_eq_true _ _)
  · exact isTrivial_setRescaleValues_of_pos r w

/-- Witness for C2 (amended) at a concrete two-dimensional
representation. -/
theorem isTrivial_iff_flag_and_no_rescale_witness :
    isTrivial (setRescaleValues repEx2 wEx) = false :=
  (isTrivial_iff_flag_and_no_rescale repEx2 wEx).2 (by decide)

/-- C10: the result of isValid is independent of any configured rescale
weights — after setRescaleValues the outcome equals both the outcome on
the weight-free representation and the outcome before the call — and
setRescaleValues never changes the trivial flag, the only datum the
branch inside isValid consults. -/
theorem isValid_independent_of_rescale {P : Type} (r : PointRep P)
    (w : Nat → F) (p : P) :
    isValid (setRescaleValues r w) p = isValid { r with alpha := [] } p ∧
      isValid (setRescaleValues r w) p = isValid r p ∧
      (setRescaleValues r w).trivial = r.trivial :=
  ⟨rfl, rfl, rfl⟩

/-- C3: vectorize writes exactly nr_dimensions floats, and the float at
each position i below nr_dimensions is the converted value multiplied by
alpha[i] when rescale weights are configured, and the converted value
unchanged when none are. -/
theorem vectorize_elementwise {P : Type} (r : PointRep P) (p : P) (i : Nat)
    (hi : i < r.nr_dimensions) :
    (vectorize r p).length = r.nr_dimensions ∧
      (vectorize r p).getD i F.nan =
        (if r.alpha.isEmpty then r.copyToFloatArray p i
         else F.mul (r.copyToFloatArray p i) (r.alpha.getD i F.nan)) := by
  unfold vectorize
  by_cases h : r.alpha.isEmpty
  · simp only [if_pos h]
    refine ⟨by simp, ?_⟩
    have hlen : i <
        ((List.range r.nr_dimensions).map
          (fun j => r.copyToFloatArray p j)).length := by
      simpa using hi
    rw [List.getD_eq_getElem _ _ hlen]
    simp
  · simp only [if_neg h]
    refine ⟨by simp, ?_⟩
    have hlen : i <
        ((List.range r.nr_dimensions).map
          (fun j => F.mul (r.copyToFloatArray p j) (r.alpha.getD j F.nan))).length := by
      simpa using hi
    rw [List.getD_eq_getElem _ _ hlen]
    simp

/-- Witness for C3 at a concrete representation and point, at position 1. -/
theorem vectorize_elementwise_witness :
    (vectorize repEx2 pEx).length = 2 ∧
      (vectorize repEx2 pEx).getD 1 F.nan =
        (if repEx2.alpha.isEmpty then repEx2.copyToFloatArray pEx 1
         else F.mul (repEx2.copyToFloatArray pEx 1) (repEx2.alpha.getD 1 F.nan)) :=
  vectorize_elementwise repEx2 pEx 1 (by decide)

/-- C4: isValid returns false iff at least one of the first nr_dimensions
produced float values of the point is not finite, and true otherwise;
stated under the documented contract of the trivial flag (when the flag is
set, the conversion coincides with the raw memory read the fast path
uses). -/
theorem isValid_false_iff_nonfinite {P : Type} (r : PointRep P) (p : P)
    (hcontract : r.trivial = true →
      ∀ i, i < r.nr_dimensions → r.memFloats p i = r.copyToFloatArray p i) :
    (isValid r p = false ↔
      ∃ i, i < r.nr_dimensions ∧ (r.copyToFloatArray p i).isfinite = false) := by
  have hval : isValid r p = isValidFullConversion r p := by
    unfold isValid isValidFullConversion
    by_cases h : r.trivial
    · rw [if_pos h]
      refine list_all_congr _ ?_
      intro i hi
      rw [hcontract h i (List.mem_range.mp hi)]
    · rw [if_neg h]
  rw [hval]
  unfold isValidFullConversion
  rw [Bool.eq_false_iff, ne_eq, List.all_eq_true]
  simp only [List.mem_range, not_forall, Bool.not_eq_true, exists_prop]

/-- Witness for C4 at a concrete trivial representation and a point with a
NaN coordinate. -/
theorem isValid_false_iff_nonfinite_witness :
    isValid repEx2 pEx = false ↔
      ∃ i, i < 2 ∧ (repEx2.copyToFloatArray pEx i).isfinite = false :=
  isValid_false_iff_nonfinite repEx2 pEx (fun _ _ _ => rfl)

/-- Helper: the constructor arithmetic of DefaultPointRepresentation is the
clamped integer division. -/
theorem defaultNrDimensions_eq_min (a b : Nat) :
    defaultNrDimensions a b = min (a / b) 3 := by
  unfold defaultNrDimensions
  dsimp only
  split <;> omega

/-- C5: the DefaultPointRepresentation constructor sets nr_dimensions to
sizeof(point) / sizeof(float) clamped to at most 3 and marks the
representation trivial; when the point byte size is below the float byte
size, nr_dimensions becomes 0, construction still succeeds, and the
representation produces empty vectors. -/
theorem defaultPointRepresentation_ctor {P : Type} (szPoint szFloat : Nat)
    (m : P → Nat → F) (p : P) (_hF : 0 < szFloat) :
    (DefaultPointRepresentation (P := P) szPoint szFloat m).nr_dimensions =
        min (szPoint / szFloat) 3 ∧
      (DefaultPointRepresentation (P := P) szPoint szFloat m).trivial = true ∧
      (szPoint < szFloat →
        (DefaultPointRepresentation (P := P) szPoint szFloat m).nr_dimensions = 0 ∧
          vectorize (DefaultPointRepresentation szPoint szFloat m) p = []) := by
  refine ⟨defaultNrDimensions_eq_min szPoint szFloat, rfl, ?_⟩
  intro hlt
  have h0 : szPoint / szFloat = 0 := Nat.div_eq_of_lt hlt
  have hnr : (DefaultPointRepresentation (P := P) szPoint szFloat m).nr_dimensions = 0 := by
    show defaultNrDimensions szPoint szFloat = 0
    rw [defaultNrDimensions_eq_min, h0]
    rfl
  refine ⟨hnr, ?_⟩
  unfold vectorize
  rw [hnr]
  simp [DefaultPointRepresentation]

/-- Witness for C5 with a two-byte point type and four-byte floats. -/
theorem defaultPointRepresentation_ctor_witness :
    (DefaultPointRepresentation (P := List F) 2 4 listMem).nr_dimensions =
        min (2 / 4) 3 ∧
      (DefaultPointRepresentation (P := List F) 2 4 listMem).trivial = true ∧
      (2 < 4 →
        (DefaultPointRepresentation (P := List F) 2 4 listMem).nr_dimensions = 0 ∧
          vectorize (DefaultPointRepresentation 2 4 listMem) pEx = []) :=
  defaultPointRepresentation_ctor 2 4 listMem pEx (by decide)

/-- C6: after setRescaleValues the stored alpha has exactly nr_dimensions
entries, copied from the first nr_dimensions entries of the weight array;
nr_dimensions itself is unchanged, so the invariant persists across
repeated calls. -/
theorem setRescaleValues_alpha_spec {P : Type} (r : PointRep P)
    (w w2 : Nat → F) :
    (setRescaleValues r w).alpha.length = r.nr_dimensions ∧
      (∀ i, i < r.nr_dimensions →
        (setRescaleValues r w).alpha.getD i F.nan = w i) ∧
      (setRescaleValues r w).nr_dimensions = r.nr_dimensions ∧
      (setRescaleValues (setRescaleValues r w) w2).alpha.length =
        r.nr_dimensions := by
  refine ⟨by simp [setRescaleValues], ?_, rfl, by simp [setRescaleValues]⟩
  intro i hi
  unfold setRescaleValues
  have hlen : i < ((List.range r.nr_dimensions).map w).length := by simpa using hi
  rw [List.getD_eq_getElem _ _ hlen]
  simp

/-- Witness for C6 at a concrete representation and weight array. -/
theorem setRescaleValues_alpha_spec_witness :
    (setRescaleValues repEx2 wEx).alpha.length = 2 ∧
      (setRescaleValues repEx2 wEx).alpha.getD 1 F.nan = wEx 1 :=
  ⟨(setRescaleValues_alpha_spec repEx2 wEx wEx).1,
   (setRescaleValues_alpha_spec repEx2 wEx wEx).2.1 1 (by decide)⟩

/-- C7 counterexample: on the zero-dimensional trivial representation,
setting all-1.0 rescale weights leaves vectorize unchanged as claimed, but
isTrivial still returns true afterwards even though it returned true
before, refuting the clause that isTrivial returns false once the all-1.0
weights are set. -/
theorem ones_rescale_zeroDim_counterexample :
    vectorize (setRescaleValues zeroDimRep onesWeights) pEx =
        vectorize zeroDimRep pEx ∧
      isTrivial zeroDimRep = true ∧
      isTrivial (setRescaleValues zeroDimRep onesWeights) = true := by
  refine ⟨?_, rfl, rfl⟩
  decide

/-- C7 (amended): on a representation with no rescale weights configured,
setting all-1.0 weights yields exactly the same vectorize output as
leaving the weights unconfigured; and for a trivial representation with at
least one dimension, isTrivial returned true before and returns false once
the all-1.0 weights are set.  (For a zero-dimensional representation the
stored alpha stays empty and isTrivial is unchanged.) -/
theorem ones_rescale_equiv {P : Type} (r : PointRep P) (p : P)
    (halpha : r.alpha = []) :
    vectorize (setRescaleValues r (fun _ => F.finite 1)) p = vectorize r p ∧
      (r.trivial = true → 0 < r.nr_dimensions →
        isTrivial r = true ∧
          isTrivial (setRescaleValues r (fun _ => F.finite 1)) = false) := by
  constructor
  · unfold vectorize setRescaleValues
    by_cases hn : r.nr_dimensions = 0
    · simp [hn, halpha]
    · have hne : ¬ ((List.range r.nr_dimensions).map
          (fun _ => F.finite 1)).isEmpty = true := by
        simp [List.isEmpty_iff, List.range_eq_nil, hn]
      simp only [hne, if_false, halpha, List.isEmpty_nil, if_true]
      refine List.map_congr_left ?_
      intro i hi
      have hlt : i < ((List.range r.nr_dimensions).map
          (fun _ => F.finite 1)).length := by
        simpa using List.mem_range.mp hi
      rw [List.getD_eq_getElem _ _ hlt]
      simp [F.mul_one_right]
  · intro htriv hpos
    refine ⟨?_, isTrivial_setRescaleValues_of_pos r _ hpos⟩
    unfold isTrivial
    rw [htriv, halpha]
    rfl

/-- Witness for C7 (amended) at a concrete two-dimensional trivial
representation and a point with a NaN coordinate. -/
theorem ones_rescale_equiv_witness :
    vectorize (setRescaleValues repEx2 (fun _ => F.finite 1)) pEx =
        vectorize repEx2 pEx ∧
      isTrivial repEx2 = true ∧
      isTrivial (setRescaleValues repEx2 (fun _ => F.finite 1)) = false :=
  ⟨(ones_rescale_equiv repEx2 pEx rfl).1,
   (ones_rescale_equiv repEx2 pEx rfl).2 rfl (by decide)⟩

/-- Concrete cloud of two feature vectors used by the C8 witness. -/
def cloudEx : List (List ℚ) := [[0, 0], [3, 4]]

/-- Concrete query vector used by the C8 witness. -/
def qEx : List ℚ := [0, 0]

/-- C8: over a nonempty dataset and k at least 1, nearestKSearch returns
exactly min(k, N) results — the count written — sorted by non-decreasing
squared Euclidean distance with ties broken by ascending point index, and
with no duplicate point indices. -/
theorem nearestKSearch_spec (cloud : List (List ℚ)) (q : List ℚ) (k : Nat)
    (_hN : 0 < cloud.length) (_hk : 0 < k) :
    (nearestKSearch cloud q k).length = min k cloud.length ∧
      List.Sorted resultOrder (nearestKSearch cloud q k) ∧
      ((nearestKSearch cloud q k).map Prod.fst).Nodup := by
  unfold nearestKSearch
  set cand := (List.range cloud.length).map
    (fun i => (i, sqDist q (cloud.getD i []))) with hcand
  have hlen : cand.length = cloud.length := by simp [hcand]
  have hsorted := List.sorted_insertionSort resultOrder cand
  have hperm := List.perm_insertionSort resultOrder cand
  refine ⟨?_, ?_, ?_⟩
  · rw [List.length_take, hperm.length_eq, hlen]
  · exact List.Pairwise.sublist (List.take_sublist k _) hsorted
  · have h1 : List.Perm ((List.insertionSort resultOrder cand).map Prod.fst)
        (cand.map Prod.fst) := hperm.map Prod.fst
    have h2 : cand.map Prod.fst = List.range cloud.length := by
      rw [hcand, List.map_map]
      exact List.map_id _
    have h3 : ((List.insertionSort resultOrder cand).map Prod.fst).Nodup := by
      rw [h1.nodup_iff, h2]
      exact List.nodup_range _
    have hsub : List.Sublist
        (((List.insertionSort resultOrder cand).take k).map Prod.fst)
        ((List.insertionSort resultOrder cand).map Prod.fst) :=
      List.Sublist.map Prod.fst (List.take_sublist k _)
    exact List.Nodup.sublist hsub h3

/-- Witness for C8 on a concrete two-point cloud with k = 1. -/
theorem nearestKSearch_spec_witness :
    (nearestKSearch cloudEx qEx 1).length = min 1 cloudEx.length ∧
      List.Sorted resultOrder (nearestKSearch cloudEx qEx 1) ∧
      ((nearestKSearch cloudEx qEx 1).map Prod.fst).Nodup :=
  nearestKSearch_spec cloudEx qEx 1 (by decide) (by decide)

/-- C9: setInputCloud over the empty cloud fails with InvalidInputError
instead of entering the Built state, and likewise fails with
InvalidInputError whenever the bound representation has nr_dimensions
equal to 0, whatever the cloud. -/
theorem setInputCloud_invalid_input {P : Type} (cloud : List P)
    (vec : P → List ℚ) (d : Nat) :
    setInputCloud ([] : List P) vec d =
        Except.error IndexError.invalidInputError ∧
      setInputCloud cloud vec 0 =
        Except.error IndexError.invalidInputError := by
  constructor
  · rfl
  · unfold setInputCloud
    rw [if_pos (Or.inr rfl)]

end KdtreeSpec
